import Mathlib

/-!
Shallow embedding of the WireguardRelay UDP relay (Rust) and proofs about it.

The embedding follows the repository sources:
  * `src/socket.rs`  — address canonicalization (`to_canonicalized_ipv6` /
    `to_canonicalized_ipv4`) and the polling `SocketPool`;
  * `src/session.rs` — the relay `Session` with `forward` and `atime`;
  * `src/handshake.rs` — the `Handshake` validator with its MAC1 check and
    bounded replay history;
  * `src/lib.rs` — the event-loop fragments the claims touch (the
    socket-lookup `expect` and the handling of `forward` errors).

Modelling conventions:
  * machine integers (`u8`, `u16`, `u64`, `usize`) are `Nat`; byte slices are
    `List Nat` (entries are below 256 in the real program; no claim depends on
    overflow, all operations on these values are equality tests and container
    operations);
  * `Instant` is a `Nat` timestamp; `Instant::now()` becomes an explicit
    `now` argument;
  * the Blake2s primitives come from an external crate, so they are treated as
    uninterpreted function parameters (`b256` for `Blake2s256`, `bmac` for
    `Blake2sMac::<U16>`); the validator applies them exactly in the
    composition the source uses;
  * fallible I/O (`send_to`) is an oracle `net : List Nat → SockAddr →
    Except Error Nat`; the sends a function attempts are returned explicitly;
  * a Rust `panic!`/`expect` is modelled by the dedicated `Panic` type (an
    `Except Panic _` result), while recoverable `Result::Err` values use the
    `Error` type; the two channels are deliberately distinct types.
-/

namespace WgRelay

/-- An IPv4 address as four octets (`std::net::Ipv4Addr`). -/
structure Ipv4Addr where
  a : Nat
  b : Nat
  c : Nat
  d : Nat
deriving DecidableEq

/-- An IPv6 address as eight 16-bit segments (`std::net::Ipv6Addr`). -/
structure Ipv6Addr where
  s0 : Nat
  s1 : Nat
  s2 : Nat
  s3 : Nat
  s4 : Nat
  s5 : Nat
  s6 : Nat
  s7 : Nat
deriving DecidableEq

/-- Rust `Ipv4Addr::to_ipv6_mapped`: `a.b.c.d` becomes `::ffff:a.b.c.d`. -/
def Ipv4Addr.to_ipv6_mapped (ip : Ipv4Addr) : Ipv6Addr :=
  ⟨0, 0, 0, 0, 0, 0xFFFF, ip.a * 256 + ip.b, ip.c * 256 + ip.d⟩

/-- Rust `Ipv6Addr::to_ipv4_mapped`: defined exactly on `::ffff:a.b.c.d`. -/
def Ipv6Addr.to_ipv4_mapped (ip : Ipv6Addr) : Option Ipv4Addr :=
  if ip.s0 = 0 ∧ ip.s1 = 0 ∧ ip.s2 = 0 ∧ ip.s3 = 0 ∧ ip.s4 = 0 ∧ ip.s5 = 0xFFFF then
    some ⟨ip.s6 / 256, ip.s6 % 256, ip.s7 / 256, ip.s7 % 256⟩
  else
    none

/-- Rust `std::net::SocketAddr` (the `V6` payload keeps flowinfo/scope id). -/
inductive SockAddr where
  | v4 (ip : Ipv4Addr) (port : Nat)
  | v6 (ip : Ipv6Addr) (port : Nat) (flowinfo : Nat) (scopeId : Nat)
deriving DecidableEq

/-- Rust `std::net::SocketAddrV4`. -/
structure SockAddrV4 where
  ip : Ipv4Addr
  port : Nat
deriving DecidableEq

/-- Rust `std::net::SocketAddrV6`. -/
structure SockAddrV6 where
  ip : Ipv6Addr
  port : Nat
  flowinfo : Nat
  scopeId : Nat
deriving DecidableEq

/-- The port of a generic socket address (`SocketAddr::port`). -/
def SockAddr.port : SockAddr → Nat
  | .v4 _ p => p
  | .v6 _ p _ _ => p

/-- Embeds `SocketAddrExt::to_canonicalized_ipv6` from `src/socket.rs`:
v4 addresses are lifted through `to_ipv6_mapped`, v6 addresses keep their ip,
and the result is `SocketAddrV6::new(ipv6, self.port(), 0, 0)`. -/
def SockAddr.to_canonicalized_ipv6 : SockAddr → SockAddrV6
  | .v4 ip port => ⟨ip.to_ipv6_mapped, port, 0, 0⟩
  | .v6 ip port _ _ => ⟨ip, port, 0, 0⟩

/-- Embeds `SocketAddrExt::to_canonicalized_ipv4` from `src/socket.rs`:
v4 addresses pass through, v6 addresses go through `to_ipv4_mapped?`. -/
def SockAddr.to_canonicalized_ipv4 : SockAddr → Option SockAddrV4
  | .v4 ip port => some ⟨ip, port⟩
  | .v6 ip port _ _ => (ip.to_ipv4_mapped).map (fun v4 => ⟨v4, port⟩)

/-- Rust `SocketAddr::from(SocketAddrV6)`. -/
def SockAddrV6.toSockAddr (a : SockAddrV6) : SockAddr :=
  .v6 a.ip a.port a.flowinfo a.scopeId

/-- The recoverable error values produced by the embedded fragments: one
constructor per `error!` site the claims touch (`src/handshake.rs`,
`src/session.rs`), plus a constructor for I/O failures reported by the
network oracle. The Rust `Error` is a message string; the constructors here
stand for the distinct messages. -/
inductive Error where
  | notHandshake
  | macMismatch
  | macReplayed (mac : List Nat)
  | unknownSource (source : SockAddr)
  | sendFailed (code : Nat)
deriving DecidableEq

/-- Decidable equality for `Except` results, so that concrete runs of the
embedded functions can be checked by `decide`. -/
instance {ε α : Type} [DecidableEq ε] [DecidableEq α] : DecidableEq (Except ε α) :=
  fun x y =>
    match x, y with
    | .ok a, .ok b =>
      if h : a = b then .isTrue (h ▸ rfl) else .isFalse (fun hc => h (Except.ok.inj hc))
    | .error a, .error b =>
      if h : a = b then .isTrue (h ▸ rfl)
      else .isFalse (fun hc => h (Except.error.inj hc))
    | .ok _, .error _ => .isFalse (fun hc => Except.noConfusion hc)
    | .error _, .ok _ => .isFalse (fun hc => Except.noConfusion hc)

/-- A relay session (`src/session.rs`): the forwarding socket is left to the
`net` oracle of `forward`; `Instant` timestamps are `Nat`. -/
structure Session where
  client_address : SockAddr
  server_address : SockAddr
  last_uplink : Nat
  last_downlink : Nat
deriving DecidableEq

/-- Embeds `Session::forward` from `src/session.rs` (lines 74-90). The `net`
oracle stands for `self.socket.send_to`; `now` stands for `Instant::now()`.
Besides the updated session and the `Result`, the embedding returns the list
of send attempts `(packet, destination)` the call makes, so that theorems can
speak about what was sent where. A failed send (`?` operator) returns the
error without touching the timestamps. -/
def Session.forward (net : List Nat → SockAddr → Except Error Nat) (now : Nat)
    (s : Session) (packet : List Nat) (source : SockAddr) :
    Session × List (List Nat × SockAddr) × Except Error Unit :=
  if s.client_address = source then
    match net packet s.server_address with
    | .ok _ => ({ s with last_uplink := now }, [(packet, s.server_address)], .ok ())
    | .error e => (s, [(packet, s.server_address)], .error e)
  else if s.server_address = source then
    match net packet s.client_address with
    | .ok _ => ({ s with last_downlink := now }, [(packet, s.client_address)], .ok ())
    | .error e => (s, [(packet, s.client_address)], .error e)
  else
    (s, [], .error (.unknownSource source))

/-- Embeds `Session::atime` from `src/session.rs` (lines 92-97): the older of
the two directional activity timestamps. -/
def Session.atime (s : Session) : Nat :=
  min s.last_uplink s.last_downlink

/-- What the event loop does with one packet after `Session::forward`
(`src/lib.rs` lines 117-120): an error skips the packet and keeps draining. -/
inductive LoopAction where
  | continueDrain
  | proceed
deriving DecidableEq

/-- Embeds the `let Ok(_) = session.forward(..) else { continue }` fragment of
the event loop (`src/lib.rs` lines 117-120). -/
def handleForwardResult : Except Error Unit → LoopAction
  | .ok _ => .proceed
  | .error _ => .continueDrain

/-- A Rust panic. A function returning `Except Panic _` models code that
panics (via `expect`) on the error path; this type is distinct from the
recoverable `Error` channel. -/
inductive Panic where
  | noSocketForToken
deriving DecidableEq

/-- Assoc-list embedding of `HashMap::insert`: replace the value under an
existing key, otherwise add the binding. -/
def insertAssoc {κ δ : Type} [DecidableEq κ] (l : List (κ × δ)) (k : κ) (v : δ) :
    List (κ × δ) :=
  if l.any (fun e => e.1 = k) then
    l.map (fun e => if e.1 = k then (k, v) else e)
  else
    l ++ [(k, v)]

/-- Assoc-list embedding of `HashMap::get`. -/
def lookupAssoc {κ δ : Type} [DecidableEq κ] (l : List (κ × δ)) (k : κ) : Option δ :=
  (l.find? (fun e => e.1 = k)).map Prod.snd

/-- The polling socket pool (`src/socket.rs`, struct `SocketPool`). A socket
is represented by its canonical bound address; `eventsCapacity` is the
capacity of the reusable `mio::Events` buffer; `tokenCounter` is the
`TOKEN_COUNTER` used by `init` (it starts at 0 in a fresh process). -/
structure SocketPool where
  tokenCounter : Nat
  sockets : List (Nat × SockAddrV6)
  by_address : List (SockAddrV6 × Nat)
  eventsCapacity : Nat
deriving DecidableEq

/-- Embeds `SocketPool::new` (`src/socket.rs` lines 108-114): empty maps and
an event buffer of capacity 1024. -/
def SocketPool.new : SocketPool :=
  ⟨0, [], [], 1024⟩

/-- Embeds the success path of `SocketPool::init` (`src/socket.rs` lines
117-140): allocate a fresh token, canonicalize the bound address, index the
socket by address and by token, and resize the event buffer to twice the
socket count when the count exceeds the current capacity. -/
def SocketPool.init (p : SocketPool) (bind_address : SockAddr) : SocketPool × Nat :=
  let token := p.tokenCounter
  let address := bind_address.to_canonicalized_ipv6
  let by_address := insertAssoc p.by_address address token
  let sockets := insertAssoc p.sockets token address
  let eventsCapacity :=
    if sockets.length > p.eventsCapacity then sockets.length * 2 else p.eventsCapacity
  (⟨token + 1, sockets, by_address, eventsCapacity⟩, token)

/-- Embeds `SocketPool::by_token` (`src/socket.rs` lines 143-145). -/
def SocketPool.by_token (p : SocketPool) (token : Nat) : Option SockAddrV6 :=
  lookupAssoc p.sockets token

/-- Embeds the event-loop socket lookup
`socketpool.by_token(&event.token()).expect("failed to get socket for event token")`
(`src/lib.rs` line 75): a miss is a panic, not a recoverable error. -/
def eventSocket (p : SocketPool) (token : Nat) : Except Panic SockAddrV6 :=
  match p.by_token token with
  | some s => .ok s
  | none => .error .noSocketForToken

/-- The handshake validator state (`src/handshake.rs`, struct `Handshake`):
the configured public key, the fast-lookup set of seen MAC fingerprints
(`HashSet<u64>` as a `Finset Nat`) and the ordered history (`VecDeque<u64>`
as a `List Nat`, front at the head). -/
structure Handshake where
  public_key : List Nat
  mac_index : Finset Nat
  mac_history : List Nat
deriving DecidableEq

/-- `Handshake::HISTORY_SIZE` (`src/handshake.rs` line 60). -/
def Handshake.HISTORY_SIZE : Nat := 1024 * 256

/-- Embeds `Handshake::new` (`src/handshake.rs` lines 63-67); the capacity
hints have no observable effect. -/
def Handshake.new (public_key : List Nat) : Handshake :=
  ⟨public_key, ∅, []⟩

/-- The 64-bit fingerprint `u64::from_ne_bytes([mac[4], .., mac[11]])` of
`Handshake::register_mac1` (`src/handshake.rs` line 120), written as the
little-endian value of the middle 8 bytes (the reference platform is
little-endian; the claims only use that the fingerprint is built from bytes
4..12, never a particular byte order). Bytes are below 256, so the value fits
in 64 bits without truncation. -/
def fingerprint (mac : List Nat) : Nat :=
  mac.getD 4 0 + 256 * mac.getD 5 0 + 256 ^ 2 * mac.getD 6 0 + 256 ^ 3 * mac.getD 7 0 +
    256 ^ 4 * mac.getD 8 0 + 256 ^ 5 * mac.getD 9 0 + 256 ^ 6 * mac.getD 10 0 +
    256 ^ 7 * mac.getD 11 0

/-- Embeds `Handshake::register_mac1` (`src/handshake.rs` lines 118-139):
reject an already-seen fingerprint; otherwise evict the oldest history entry
when the history is at `HISTORY_SIZE`, then insert the new fingerprint into
both the index and the history. The `[]` match arm is unreachable when the
length equals `HISTORY_SIZE` (which is positive); it mirrors the
`if let Some(to_evict) = pop_front` of the source. -/
def Handshake.register_mac1 (h : Handshake) (mac : List Nat) :
    Handshake × Except Error Unit :=
  let mac64 := fingerprint mac
  if mac64 ∈ h.mac_index then
    (h, .error (.macReplayed mac))
  else
    let evicted :=
      if h.mac_history.length = Handshake.HISTORY_SIZE then
        match h.mac_history with
        | [] => (h.mac_index, ([] : List Nat))
        | to_evict :: rest => (h.mac_index.erase to_evict, rest)
      else
        (h.mac_index, h.mac_history)
    (⟨h.public_key, insert mac64 evicted.1, evicted.2 ++ [mac64]⟩, .ok ())

/-- The `b"mac1----"` label of `src/handshake.rs` line 82, as bytes. -/
def mac1Label : List Nat := [0x6D, 0x61, 0x63, 0x31, 0x2D, 0x2D, 0x2D, 0x2D]

/-- The expected message type bytes `01 00 00 00` (`src/handshake.rs` line 76). -/
def mtypeValue : List Nat := [0x01, 0x00, 0x00, 0x00]

/-- The MAC1 computation of `src/handshake.rs` lines 95-96, with the Blake2s
primitives of the external `blake2` crate as uninterpreted parameters:
`bmac (b256 ("mac1----" ++ public_key)) payload`. -/
def computeMac1 (b256 : List Nat → List Nat) (bmac : List Nat → List Nat → List Nat)
    (public_key payload : List Nat) : List Nat :=
  bmac (b256 (mac1Label ++ public_key)) payload

/-- Embeds `Handshake::is_valid_handshake` (`src/handshake.rs` lines 70-108):
check the exact length 148, the message type bytes, compare the computed MAC1
against `packet[116..132]` (the `verify` call, a constant-time equality), and
finally register the packet MAC1 with the replay history. -/
def Handshake.is_valid_handshake (b256 : List Nat → List Nat)
    (bmac : List Nat → List Nat → List Nat) (h : Handshake) (packet : List Nat) :
    Handshake × Except Error Unit :=
  if packet.length = 148 then
    if packet.take 4 = mtypeValue then
      let mac1 := computeMac1 b256 bmac h.public_key (packet.take 116)
      let packet_mac1 := (packet.drop 116).take 16
      if mac1 = packet_mac1 then
        h.register_mac1 packet_mac1
      else
        (h, .error .macMismatch)
    else
      (h, .error .notHandshake)
  else
    (h, .error .notHandshake)

/-- The validator states reachable from `Handshake::new` by any sequence of
`is_valid_handshake` calls (for fixed Blake2s primitives). -/
inductive ReachableH (b256 : List Nat → List Nat)
    (bmac : List Nat → List Nat → List Nat) : Handshake → Prop where
  | init (pk : List Nat) : ReachableH b256 bmac (Handshake.new pk)
  | step (h : Handshake) (packet : List Nat) :
      ReachableH b256 bmac h →
      ReachableH b256 bmac (h.is_valid_handshake b256 bmac packet).1

/-- The validator invariant tying the fast-lookup index to the ordered
history: the history is duplicate-free, the index holds exactly the history
entries, and the history is bounded by `HISTORY_SIZE`. -/
def HandshakeInv (h : Handshake) : Prop :=
  h.mac_history.Nodup ∧ (∀ x : Nat, x ∈ h.mac_index ↔ x ∈ h.mac_history) ∧
    h.mac_history.length ≤ Handshake.HISTORY_SIZE

/-- Fixed concrete stand-in for `Blake2s256` in witnesses. -/
def zeroHash32 : List Nat → List Nat := fun _ => List.replicate 32 0

/-- Fixed concrete stand-in for `Blake2sMac::<U16>` in witnesses. -/
def zeroMac16 : List Nat → List Nat → List Nat := fun _ _ => List.replicate 16 0

/-- A concrete 32-byte public key for witnesses. -/
def pk0 : List Nat := List.replicate 32 0

/-- A fresh validator over `pk0`. -/
def h0 : Handshake := Handshake.new pk0

/-- A concrete 16-byte MAC for witnesses. -/
def mac0 : List Nat := List.replicate 16 0

/-- A concrete client address for session examples. -/
def addrC : SockAddr := .v4 ⟨127, 0, 0, 1⟩ 1000

/-- A concrete server address for session examples. -/
def addrS : SockAddr := .v4 ⟨10, 0, 0, 1⟩ 2000

/-- A concrete address matching neither side of `s0`. -/
def addrX : SockAddr := .v4 ⟨9, 9, 9, 9⟩ 3000

/-- A concrete session whose directional timestamps are both 0. -/
def s0 : Session := ⟨addrC, addrS, 0, 0⟩

/-- A network oracle whose sends always succeed. -/
def net0 : List Nat → SockAddr → Except Error Nat := fun _ _ => .ok 0

/-- The bind address used by the `k`-th `init` call in the socket-pool
counterexample: wildcard v6, one distinct port per call, as the event loop
binds one socket per configured port. -/
def bindAddrAt (k : Nat) : SockAddr :=
  .v6 ⟨0, 0, 0, 0, 0, 0, 0, 0⟩ (51820 + k) 0 0

/-- The pool after `n` successful `init` calls on a fresh pool. -/
def initSeq : Nat → SocketPool
  | 0 => SocketPool.new
  | n + 1 => ((initSeq n).init (bindAddrAt n)).1

/-! Helper lemmas about `register_mac1` and the validator invariant. -/

/-- A fingerprint that is already indexed makes `register_mac1` fail with the
replay error and leave the state untouched. -/
theorem register_eq_of_mem (h : Handshake) (mac : List Nat)
    (hm : fingerprint mac ∈ h.mac_index) :
    h.register_mac1 mac = (h, .error (.macReplayed mac)) := by
  simp [Handshake.register_mac1, hm]

/-- Registering a fresh fingerprint on a full history evicts the oldest entry
and appends the new fingerprint. -/
theorem register_eq_full (h : Handshake) (mac : List Nat)
    (hm : fingerprint mac ∉ h.mac_index) (e : Nat) (rest : List Nat)
    (hh : h.mac_history = e :: rest)
    (hfull : h.mac_history.length = Handshake.HISTORY_SIZE) :
    h.register_mac1 mac =
      (⟨h.public_key, insert (fingerprint mac) (h.mac_index.erase e),
        rest ++ [fingerprint mac]⟩, .ok ()) := by
  rw [hh] at hfull
  simp only [List.length_cons] at hfull
  simp [Handshake.register_mac1, hm, hh, hfull]

/-- Registering a fresh fingerprint on a non-full history just appends it. -/
theorem register_eq_notfull (h : Handshake) (mac : List Nat)
    (hm : fingerprint mac ∉ h.mac_index)
    (hnf : h.mac_history.length ≠ Handshake.HISTORY_SIZE) :
    h.register_mac1 mac =
      (⟨h.public_key, insert (fingerprint mac) h.mac_index,
        h.mac_history ++ [fingerprint mac]⟩, .ok ()) := by
  simp [Handshake.register_mac1, hm, hnf]

/-- Registering a fresh fingerprint succeeds. -/
theorem register_snd_of_not_mem (h : Handshake) (mac : List Nat)
    (hm : fingerprint mac ∉ h.mac_index) :
    (h.register_mac1 mac).2 = .ok () := by
  by_cases hfull : h.mac_history.length = Handshake.HISTORY_SIZE
  · rcases hh : h.mac_history with _ | ⟨e, rest⟩
    · rw [hh] at hfull
      simp [Handshake.HISTORY_SIZE] at hfull
    · rw [register_eq_full h mac hm e rest hh hfull]
  · rw [register_eq_notfull h mac hm hfull]

/-- After a successful registration the fingerprint is indexed. -/
theorem register_ok_mem (h : Handshake) (mac : List Nat)
    (hok : (h.register_mac1 mac).2 = .ok ()) :
    fingerprint mac ∈ (h.register_mac1 mac).1.mac_index := by
  by_cases hm : fingerprint mac ∈ h.mac_index
  · rw [register_eq_of_mem h mac hm] at hok
    simp at hok
  · by_cases hfull : h.mac_history.length = Handshake.HISTORY_SIZE
    · rcases hh : h.mac_history with _ | ⟨e, rest⟩
      · rw [hh] at hfull
        simp [Handshake.HISTORY_SIZE] at hfull
      · rw [register_eq_full h mac hm e rest hh hfull]
        simp
    · rw [register_eq_notfull h mac hm hfull]
      simp

/-- Registration never changes the configured public key. -/
theorem register_pk (h : Handshake) (mac : List Nat) :
    (h.register_mac1 mac).1.public_key = h.public_key := by
  by_cases hm : fingerprint mac ∈ h.mac_index
  · rw [register_eq_of_mem h mac hm]
  · by_cases hfull : h.mac_history.length = Handshake.HISTORY_SIZE
    · rcases hh : h.mac_history with _ | ⟨e, rest⟩
      · rw [hh] at hfull
        simp [Handshake.HISTORY_SIZE] at hfull
      · rw [register_eq_full h mac hm e rest hh hfull]
    · rw [register_eq_notfull h mac hm hfull]

/-- Registration preserves the validator invariant. -/
theorem register_preserves_inv (h : Handshake) (mac : List Nat)
    (hi : HandshakeInv h) : HandshakeInv (h.register_mac1 mac).1 := by
  obtain ⟨hnd, hiff, hlen⟩ := hi
  by_cases hm : fingerprint mac ∈ h.mac_index
  · rw [register_eq_of_mem h mac hm]
    exact ⟨hnd, hiff, hlen⟩
  · have hnotin : fingerprint mac ∉ h.mac_history := fun hx => hm ((hiff _).mpr hx)
    by_cases hfull : h.mac_history.length = Handshake.HISTORY_SIZE
    · rcases hh : h.mac_history with _ | ⟨e, rest⟩
      · rw [hh] at hfull
        simp [Handshake.HISTORY_SIZE] at hfull
      · rw [register_eq_full h mac hm e rest hh hfull]
        rw [hh] at hnd hnotin hfull
        have hnc := List.nodup_cons.mp hnd
        have hnotin2 : fingerprint mac ∉ rest := fun hx =>
          hnotin (List.mem_cons_of_mem _ hx)
        refine ⟨?_, ?_, ?_⟩
        · simp only [List.nodup_append, List.nodup_singleton, true_and]
          refine ⟨hnc.2, ?_⟩
          intro x hx hx'
          rw [List.mem_singleton] at hx'
          exact hnotin2 (hx' ▸ hx)
        · intro x
          simp only [Finset.mem_insert, Finset.mem_erase, List.mem_append,
            List.mem_singleton]
          have hx' := hiff x
          rw [hh] at hx'
          simp only [List.mem_cons] at hx'
          constructor
          · rintro (rfl | ⟨hne, hxi⟩)
            · exact Or.inr rfl
            · rcases hx'.mp hxi with rfl | hxr
              · exact absurd rfl hne
              · exact Or.inl hxr
          · rintro (hxr | rfl)
            · exact Or.inr ⟨fun hxeq => hnc.1 (hxeq ▸ hxr), hx'.mpr (Or.inr hxr)⟩
            · exact Or.inl rfl
        · simp only [List.length_cons] at hfull
          simp only [List.length_append, List.length_singleton]
          omega
    · rw [register_eq_notfull h mac hm hfull]
      refine ⟨?_, ?_, ?_⟩
      · simp only [List.nodup_append, List.nodup_singleton, true_and]
        refine ⟨hnd, ?_⟩
        intro x hx hx'
        rw [List.mem_singleton] at hx'
        exact hnotin (hx' ▸ hx)
      · intro x
        simp only [Finset.mem_insert, List.mem_append, List.mem_singleton, hiff x]
        tauto
      · simp only [List.length_append, List.length_singleton]
        omega

/-- One validation step either leaves the state alone or equals one
registration of the packet MAC1 slice. -/
theorem is_valid_result (b256 : List Nat → List Nat)
    (bmac : List Nat → List Nat → List Nat) (h : Handshake) (packet : List Nat) :
    (h.is_valid_handshake b256 bmac packet).1 = h ∨
      h.is_valid_handshake b256 bmac packet =
        h.register_mac1 ((packet.drop 116).take 16) := by
  by_cases h1 : packet.length = 148
  · by_cases h2 : packet.take 4 = mtypeValue
    · by_cases h3 : computeMac1 b256 bmac h.public_key (packet.take 116) =
          (packet.drop 116).take 16
      · right
        unfold Handshake.is_valid_handshake
        simp [h1, h2, h3]
      · left
        unfold Handshake.is_valid_handshake
        simp [h1, h2, h3]
    · left
      unfold Handshake.is_valid_handshake
      simp [h1, h2]
  · left
    unfold Handshake.is_valid_handshake
    simp [h1]

/-- A fresh validator satisfies the invariant. -/
theorem inv_new (pk : List Nat) : HandshakeInv (Handshake.new pk) := by
  refine ⟨List.nodup_nil, ?_, ?_⟩ <;> simp [Handshake.new, Handshake.HISTORY_SIZE]

/-- Validation preserves the invariant. -/
theorem is_valid_preserves_inv (b256 : List Nat → List Nat)
    (bmac : List Nat → List Nat → List Nat) (h : Handshake) (packet : List Nat)
    (hi : HandshakeInv h) : HandshakeInv (h.is_valid_handshake b256 bmac packet).1 := by
  rcases is_valid_result b256 bmac h packet with heq | heq
  · rw [heq]
    exact hi
  · rw [heq]
    exact register_preserves_inv h _ hi

/-- Every reachable validator state satisfies the invariant. -/
theorem reachable_inv (b256 : List Nat → List Nat)
    (bmac : List Nat → List Nat → List Nat) (h : Handshake)
    (hr : ReachableH b256 bmac h) : HandshakeInv h := by
  induction hr with
  | init pk => exact inv_new pk
  | step h packet _ ih => exact is_valid_preserves_inv b256 bmac h packet ih

/-- A successful validation pins down every check and reduces the call to one
registration of the packet MAC1 slice. -/
theorem is_valid_ok_parts (b256 : List Nat → List Nat)
    (bmac : List Nat → List Nat → List Nat) (h : Handshake) (packet : List Nat)
    (hok : (h.is_valid_handshake b256 bmac packet).2 = .ok ()) :
    packet.length = 148 ∧ packet.take 4 = mtypeValue ∧
      computeMac1 b256 bmac h.public_key (packet.take 116) = (packet.drop 116).take 16 ∧
      h.is_valid_handshake b256 bmac packet =
        h.register_mac1 ((packet.drop 116).take 16) := by
  by_cases h1 : packet.length = 148
  · by_cases h2 : packet.take 4 = mtypeValue
    · by_cases h3 : computeMac1 b256 bmac h.public_key (packet.take 116) =
          (packet.drop 116).take 16
      · refine ⟨h1, h2, h3, ?_⟩
        unfold Handshake.is_valid_handshake
        simp [h1, h2, h3]
      · exfalso
        unfold Handshake.is_valid_handshake at hok
        simp [h1, h2, h3] at hok
    · exfalso
      unfold Handshake.is_valid_handshake at hok
      simp [h1, h2] at hok
  · exfalso
    unfold Handshake.is_valid_handshake at hok
    simp [h1] at hok

/-! Helper lemmas about `SocketPool.init`. -/

/-- When every indexed token is below the counter, `init` appends the new
socket under the fresh token and resizes the buffer only when the new count
exceeds the current capacity. -/
theorem init_fresh_step (p : SocketPool) (addr : SockAddr)
    (hfresh : ∀ e ∈ p.sockets, e.1 < p.tokenCounter) :
    (p.init addr).1.tokenCounter = p.tokenCounter + 1 ∧
      (p.init addr).1.sockets =
        p.sockets ++ [(p.tokenCounter, addr.to_canonicalized_ipv6)] ∧
      (p.init addr).1.eventsCapacity =
        (if p.sockets.length + 1 > p.eventsCapacity then (p.sockets.length + 1) * 2
          else p.eventsCapacity) := by
  have hany : (p.sockets.any (fun e => e.1 = p.tokenCounter)) = false := by
    simp only [List.any_eq_false, decide_eq_true_eq]
    intro e he
    exact Nat.ne_of_lt (hfresh e he)
  have hsock : insertAssoc p.sockets p.tokenCounter addr.to_canonicalized_ipv6 =
      p.sockets ++ [(p.tokenCounter, addr.to_canonicalized_ipv6)] := by
    unfold insertAssoc
    rw [hany]
    simp
  refine ⟨rfl, ?_, ?_⟩
  · show insertAssoc p.sockets p.tokenCounter addr.to_canonicalized_ipv6 =
      p.sockets ++ [(p.tokenCounter, addr.to_canonicalized_ipv6)]
    exact hsock
  · show (if (insertAssoc p.sockets p.tokenCounter
          addr.to_canonicalized_ipv6).length > p.eventsCapacity
        then (insertAssoc p.sockets p.tokenCounter
          addr.to_canonicalized_ipv6).length * 2
        else p.eventsCapacity) =
      (if p.sockets.length + 1 > p.eventsCapacity then (p.sockets.length + 1) * 2
        else p.eventsCapacity)
    rw [hsock]
    simp

/-- Closed form for a fresh pool after `n` successful `init` calls: `n`
sockets, tokens `0 .. n-1`, and an event buffer still at its initial 1024
capacity as long as `n ≤ 1024`. -/
theorem initSeq_facts (n : Nat) :
    (initSeq n).tokenCounter = n ∧ (initSeq n).sockets.length = n ∧
      (∀ e ∈ (initSeq n).sockets, e.1 < n) ∧
      (n ≤ 1024 → (initSeq n).eventsCapacity = 1024) := by
  induction n with
  | zero =>
    refine ⟨rfl, rfl, ?_, fun _ => rfl⟩
    intro e he
    simp [initSeq, SocketPool.new] at he
  | succ n ih =>
    obtain ⟨hc, hl, hb, hcap⟩ := ih
    have hfresh : ∀ e ∈ (initSeq n).sockets, e.1 < (initSeq n).tokenCounter := by
      intro e he
      rw [hc]
      exact hb e he
    have hstep := init_fresh_step (initSeq n) (bindAddrAt n) hfresh
    have hrw : initSeq (n + 1) = ((initSeq n).init (bindAddrAt n)).1 := rfl
    refine ⟨?_, ?_, ?_, ?_⟩
    · rw [hrw, hstep.1, hc]
    · rw [hrw, hstep.2.1]
      simp [hl]
    · intro e he
      rw [hrw, hstep.2.1] at he
      rcases List.mem_append.mp he with hin | hin
      · exact Nat.lt_succ_of_lt (hb e hin)
      · rw [List.mem_singleton] at hin
        rw [hin, hc]
        exact Nat.lt_succ_self n
    · intro hle
      rw [hrw, hstep.2.2, hl, hcap (by omega)]
      rw [if_neg (by omega)]

/-! Claim theorems. -/

/-- Claim C1: `Handshake::is_valid_handshake` succeeds exactly when the packet
is 148 bytes long, starts with the bytes `01 00 00 00`, its bytes 116..132
equal the 16-byte tag `Blake2s-MAC(key = Blake2s-256("mac1----" ++ K), input =
packet[0..116])` for the configured public key `K`, and the MAC1 has not been
seen before (its fingerprint is not in the seen-MAC index). The Blake2s
primitives are uninterpreted parameters, applied in exactly the source's
composition. -/
theorem is_valid_handshake_success_iff (b256 : List Nat → List Nat)
    (bmac : List Nat → List Nat → List Nat) (h : Handshake) (packet : List Nat) :
    (h.is_valid_handshake b256 bmac packet).2 = .ok () ↔
      (packet.length = 148 ∧ packet.take 4 = [0x01, 0x00, 0x00, 0x00] ∧
        bmac (b256 (mac1Label ++ h.public_key)) (packet.take 116) =
          (packet.drop 116).take 16 ∧
        fingerprint ((packet.drop 116).take 16) ∉ h.mac_index) := by
  constructor
  · intro hok
    obtain ⟨h1, h2, h3, heq⟩ := is_valid_ok_parts b256 bmac h packet hok
    refine ⟨h1, by simpa [mtypeValue] using h2, h3, ?_⟩
    intro hmem
    rw [heq, register_eq_of_mem h _ hmem] at hok
    simp at hok
  · rintro ⟨h1, h2, h3, h4⟩
    have h2' : packet.take 4 = mtypeValue := by simpa [mtypeValue] using h2
    have h3' : computeMac1 b256 bmac h.public_key (packet.take 116) =
        (packet.drop 116).take 16 := h3
    unfold Handshake.is_valid_handshake
    rw [if_pos h1, if_pos h2']
    show (if computeMac1 b256 bmac h.public_key (packet.take 116) =
          (packet.drop 116).take 16 then
        h.register_mac1 ((packet.drop 116).take 16)
      else (h, Except.error Error.macMismatch)).2 = Except.ok ()
    rw [if_pos h3']
    exact register_snd_of_not_mem h _ h4

/-- Claim C2: `Session::forward` attempts a send to the server address exactly
when the source is the client address, attempts a send to the client address
exactly when the source is the server address, and attempts no send at all
exactly when the source matches neither. -/
theorem forward_routing (net : List Nat → SockAddr → Except Error Nat) (now : Nat)
    (s : Session) (packet : List Nat) (source : SockAddr) :
    ((packet, s.server_address) ∈ (s.forward net now packet source).2.1 ↔
        source = s.client_address) ∧
      ((packet, s.client_address) ∈ (s.forward net now packet source).2.1 ↔
        source = s.server_address) ∧
      ((s.forward net now packet source).2.1 = [] ↔
        (source ≠ s.client_address ∧ source ≠ s.server_address)) := by
  unfold Session.forward
  by_cases hc : s.client_address = source
  · subst hc
    cases hnet : net packet s.server_address with
    | ok n => simp [hnet, Prod.ext_iff, eq_comm]
    | error e => simp [hnet, Prod.ext_iff, eq_comm]
  · have hc' : source ≠ s.client_address := fun hx => hc hx.symm
    by_cases hs : s.server_address = source
    · subst hs
      cases hnet : net packet s.client_address with
      | ok n => simp [hc, hc', hnet, Prod.ext_iff, eq_comm]
      | error e => simp [hc, hc', hnet, Prod.ext_iff, eq_comm]
    · have hs' : source ≠ s.server_address := fun hx => hs hx.symm
      simp [hc, hs, hc', hs']

/-- Claim C3 (amended): after a `Session::forward` call at time `now` that
successfully sends, the directional timestamp of the direction that sent
equals `now`, and `atime()` is the minimum of the two directional timestamps
(so it equals the older of `now` and the opposite direction's timestamp), not
necessarily `now` itself. -/
theorem forward_atime_after_send (net : List Nat → SockAddr → Except Error Nat)
    (now : Nat) (s : Session) (packet : List Nat) (source : SockAddr)
    (hok : (s.forward net now packet source).2.2 = .ok ()) :
    (if s.client_address = source then
        (s.forward net now packet source).1.last_uplink = now
      else (s.forward net now packet source).1.last_downlink = now) ∧
      (s.forward net now packet source).1.atime =
        (if s.client_address = source then min now s.last_downlink
          else min s.last_uplink now) := by
  unfold Session.forward at hok ⊢
  by_cases hc : s.client_address = source
  · cases hnet : net packet s.server_address with
    | ok n => simp [hc, hnet, Session.atime]
    | error e => simp [hc, hnet] at hok
  · by_cases hs : s.server_address = source
    · cases hnet : net packet s.client_address with
      | ok n => simp [hc, hs, hnet, Session.atime]
      | error e => simp [hc, hs, hnet] at hok
    · simp [hc, hs] at hok

/-- Claim C3 witness: a concrete successful client-to-server forward at time 5
on a session whose timestamps are 0. -/
theorem forward_atime_after_send_witness :
    (if s0.client_address = addrC then
        (s0.forward net0 5 [7] addrC).1.last_uplink = 5
      else (s0.forward net0 5 [7] addrC).1.last_downlink = 5) ∧
      (s0.forward net0 5 [7] addrC).1.atime =
        (if s0.client_address = addrC then min 5 s0.last_downlink
          else min s0.last_uplink 5) :=
  forward_atime_after_send net0 5 s0 [7] addrC (by decide)

/-- Claim C3 counterexample: a successful forward at time 5, after which
`atime()` is 0, not 5 — the claim that `atime()` equals the send time fails
because `atime` returns the older of the two directional timestamps
(`src/session.rs` line 96). -/
theorem forward_atime_cex :
    (s0.forward net0 5 [7] addrC).2.2 = .ok () ∧
      (s0.forward net0 5 [7] addrC).1.atime ≠ 5 := by
  decide

/-- Claim C4: on a reachable validator state, a fingerprint already in the
history is rejected with the replay error; a fresh fingerprint is appended
after evicting the oldest entry when the history is at `HISTORY_SIZE`; and a
packet whose validation succeeded does not validate a second time. -/
theorem register_replay_spec (b256 : List Nat → List Nat)
    (bmac : List Nat → List Nat → List Nat) (h : Handshake)
    (hr : ReachableH b256 bmac h) (mac packet : List Nat) :
    (fingerprint mac ∈ h.mac_history →
        h.register_mac1 mac = (h, .error (.macReplayed mac))) ∧
      (fingerprint mac ∉ h.mac_history →
        (h.register_mac1 mac).1.mac_history =
            (if h.mac_history.length = Handshake.HISTORY_SIZE then
              h.mac_history.tail else h.mac_history) ++ [fingerprint mac] ∧
          (h.register_mac1 mac).2 = .ok ()) ∧
      ((h.is_valid_handshake b256 bmac packet).2 = .ok () →
        ((h.is_valid_handshake b256 bmac packet).1.is_valid_handshake b256 bmac
            packet).2 ≠ .ok ()) := by
  have hi := reachable_inv b256 bmac h hr
  refine ⟨?_, ?_, ?_⟩
  · intro hmem
    exact register_eq_of_mem h mac ((hi.2.1 _).mpr hmem)
  · intro hnm
    have hm : fingerprint mac ∉ h.mac_index := fun hx => hnm ((hi.2.1 _).mp hx)
    refine ⟨?_, register_snd_of_not_mem h mac hm⟩
    by_cases hfull : h.mac_history.length = Handshake.HISTORY_SIZE
    · rcases hh : h.mac_history with _ | ⟨e, rest⟩
      · rw [hh] at hfull
        simp [Handshake.HISTORY_SIZE] at hfull
      · have hfull' : (e :: rest).length = Handshake.HISTORY_SIZE := hh ▸ hfull
        rw [register_eq_full h mac hm e rest hh hfull, if_pos hfull']
        rfl
    · have hfull' : ¬(h.mac_history.length = Handshake.HISTORY_SIZE) := hfull
      rw [register_eq_notfull h mac hm hfull, if_neg hfull']
  · intro hok hok2
    obtain ⟨hlen, hmt, hmac, heq⟩ := is_valid_ok_parts b256 bmac h packet hok
    rw [heq] at hok
    have hfpmem : fingerprint ((packet.drop 116).take 16) ∈
        (h.is_valid_handshake b256 bmac packet).1.mac_index := by
      rw [heq]
      exact register_ok_mem h _ hok
    obtain ⟨hlen2, hmt2, hmac2, heq2⟩ :=
      is_valid_ok_parts b256 bmac (h.is_valid_handshake b256 bmac packet).1
        packet hok2
    rw [heq2, register_eq_of_mem _ _ hfpmem] at hok2
    simp at hok2

/-- Claim C4 witness: the replay semantics instantiated at the fresh validator
state and a concrete all-zero MAC and empty packet. -/
theorem register_replay_spec_witness :
    (fingerprint mac0 ∈ h0.mac_history →
        h0.register_mac1 mac0 = (h0, .error (.macReplayed mac0))) ∧
      (fingerprint mac0 ∉ h0.mac_history →
        (h0.register_mac1 mac0).1.mac_history =
            (if h0.mac_history.length = Handshake.HISTORY_SIZE then
              h0.mac_history.tail else h0.mac_history) ++ [fingerprint mac0] ∧
          (h0.register_mac1 mac0).2 = .ok ()) ∧
      ((h0.is_valid_handshake zeroHash32 zeroMac16 []).2 = .ok () →
        ((h0.is_valid_handshake zeroHash32 zeroMac16 []).1.is_valid_handshake
            zeroHash32 zeroMac16 []).2 ≠ .ok ()) :=
  register_replay_spec zeroHash32 zeroMac16 h0 (ReachableH.init pk0) mac0 []

/-- Claim C5: on every reachable validator state the MAC history holds at most
`HISTORY_SIZE` entries, and every further `is_valid_handshake` call preserves
the bound. -/
theorem mac_history_bounded (b256 : List Nat → List Nat)
    (bmac : List Nat → List Nat → List Nat) (h : Handshake)
    (hr : ReachableH b256 bmac h) :
    h.mac_history.length ≤ Handshake.HISTORY_SIZE ∧
      ∀ packet : List Nat,
        ((h.is_valid_handshake b256 bmac packet).1).mac_history.length ≤
          Handshake.HISTORY_SIZE := by
  refine ⟨(reachable_inv b256 bmac h hr).2.2, fun packet => ?_⟩
  exact (reachable_inv b256 bmac _ (ReachableH.step h packet hr)).2.2

/-- Claim C5 witness: the bound instantiated at the fresh validator state. -/
theorem mac_history_bounded_witness :
    h0.mac_history.length ≤ Handshake.HISTORY_SIZE ∧
      ∀ packet : List Nat,
        ((h0.is_valid_handshake zeroHash32 zeroMac16 packet).1).mac_history.length ≤
          Handshake.HISTORY_SIZE :=
  mac_history_bounded zeroHash32 zeroMac16 h0 (ReachableH.init pk0)

/-- Claim C6 (amended): a poll event token with no socket panics (the `expect`
in `src/lib.rs` line 75, modelled by the `Panic` channel), but a packet whose
source matches neither session address makes `Session::forward` return the
recoverable error `Unknown packet from {source}` with no send and an
unchanged session, which the event loop handles by skipping the packet — it
does not panic. -/
theorem invariant_violation_outcomes (p : SocketPool) (token : Nat)
    (hnone : p.by_token token = none)
    (net : List Nat → SockAddr → Except Error Nat) (now : Nat) (s : Session)
    (packet : List Nat) (source : SockAddr) (h1 : source ≠ s.client_address)
    (h2 : source ≠ s.server_address) :
    eventSocket p token = .error .noSocketForToken ∧
      s.forward net now packet source = (s, [], .error (.unknownSource source)) ∧
      handleForwardResult (s.forward net now packet source).2.2 =
        .continueDrain := by
  have hfwd : s.forward net now packet source =
      (s, [], .error (.unknownSource source)) := by
    unfold Session.forward
    rw [if_neg (fun hx => h1 hx.symm), if_neg (fun hx => h2 hx.symm)]
  refine ⟨?_, hfwd, ?_⟩
  · unfold eventSocket
    rw [hnone]
  · rw [hfwd]
    rfl

/-- Claim C6 witness: a fresh pool has no socket for token 0, and a concrete
mismatched source is skipped as a recoverable error. -/
theorem invariant_violation_outcomes_witness :
    eventSocket SocketPool.new 0 = .error .noSocketForToken ∧
      s0.forward net0 5 [7] addrX = (s0, [], .error (.unknownSource addrX)) ∧
      handleForwardResult (s0.forward net0 5 [7] addrX).2.2 = .continueDrain :=
  invariant_violation_outcomes SocketPool.new 0 (by decide) net0 5 s0 [7] addrX
    (by decide) (by decide)

/-- Claim C6 counterexample: at a concrete session and a source matching
neither address, `Session::forward` returns through its ordinary
`Result::Err` channel — a recoverable error the event loop skips — so the
claim that the program panics in this case is false (the panic channel,
`Except Panic`, is never involved: `forward` does not have it). -/
theorem forward_unknown_source_cex :
    s0.forward net0 5 [7] addrX = (s0, [], .error (.unknownSource addrX)) ∧
      handleForwardResult (s0.forward net0 5 [7] addrX).2.2 = .continueDrain := by
  decide

/-- Claim C7: `to_canonicalized_ipv6` lifts a v4 socket address to its
v4-mapped v6 form with the port preserved and zero flowinfo and scope id,
preserves the ip and port of every v6 address, round-trips with
`to_canonicalized_ipv4` on every v4 address (octets are bytes), and on a v6
address `to_canonicalized_ipv4` returns `none` exactly when the address is
not v4-mapped (`::ffff:a.b.c.d`). -/
theorem canonicalization_spec (ip4 : Ipv4Addr) (port4 : Nat) (hb0 : ip4.a < 256)
    (hb1 : ip4.b < 256) (hb2 : ip4.c < 256) (hb3 : ip4.d < 256) (ip6 : Ipv6Addr)
    (port6 flow scope : Nat) :
    SockAddr.to_canonicalized_ipv6 (.v4 ip4 port4) =
        ⟨ip4.to_ipv6_mapped, port4, 0, 0⟩ ∧
      (SockAddr.to_canonicalized_ipv6 (.v6 ip6 port6 flow scope)).ip = ip6 ∧
      (SockAddr.to_canonicalized_ipv6 (.v6 ip6 port6 flow scope)).port = port6 ∧
      SockAddr.to_canonicalized_ipv4
          (SockAddr.to_canonicalized_ipv6 (.v4 ip4 port4)).toSockAddr =
        some ⟨ip4, port4⟩ ∧
      (SockAddr.to_canonicalized_ipv4 (.v6 ip6 port6 flow scope) = none ↔
        ¬(ip6.s0 = 0 ∧ ip6.s1 = 0 ∧ ip6.s2 = 0 ∧ ip6.s3 = 0 ∧ ip6.s4 = 0 ∧
          ip6.s5 = 0xFFFF)) := by
  refine ⟨rfl, rfl, rfl, ?_, ?_⟩
  · show (Ipv6Addr.to_ipv4_mapped (Ipv4Addr.to_ipv6_mapped ip4)).map
        (fun v4 => SockAddrV4.mk v4 port4) = some ⟨ip4, port4⟩
    have hmap : Ipv6Addr.to_ipv4_mapped (Ipv4Addr.to_ipv6_mapped ip4) = some ip4 := by
      have hcond : (Ipv4Addr.to_ipv6_mapped ip4).s0 = 0 ∧
          (Ipv4Addr.to_ipv6_mapped ip4).s1 = 0 ∧
          (Ipv4Addr.to_ipv6_mapped ip4).s2 = 0 ∧
          (Ipv4Addr.to_ipv6_mapped ip4).s3 = 0 ∧
          (Ipv4Addr.to_ipv6_mapped ip4).s4 = 0 ∧
          (Ipv4Addr.to_ipv6_mapped ip4).s5 = 0xFFFF :=
        ⟨rfl, rfl, rfl, rfl, rfl, rfl⟩
      unfold Ipv6Addr.to_ipv4_mapped
      rw [if_pos hcond]
      show some ⟨(ip4.a * 256 + ip4.b) / 256, (ip4.a * 256 + ip4.b) % 256,
          (ip4.c * 256 + ip4.d) / 256, (ip4.c * 256 + ip4.d) % 256⟩ = some ip4
      have f1 : (ip4.a * 256 + ip4.b) / 256 = ip4.a := by omega
      have f2 : (ip4.a * 256 + ip4.b) % 256 = ip4.b := by omega
      have f3 : (ip4.c * 256 + ip4.d) / 256 = ip4.c := by omega
      have f4 : (ip4.c * 256 + ip4.d) % 256 = ip4.d := by omega
      rw [f1, f2, f3, f4]
    rw [hmap]
    rfl
  · by_cases hcond : ip6.s0 = 0 ∧ ip6.s1 = 0 ∧ ip6.s2 = 0 ∧ ip6.s3 = 0 ∧
        ip6.s4 = 0 ∧ ip6.s5 = 0xFFFF
    · simp [SockAddr.to_canonicalized_ipv4, Ipv6Addr.to_ipv4_mapped, hcond]
    · simp [SockAddr.to_canonicalized_ipv4, Ipv6Addr.to_ipv4_mapped, hcond]

/-- Claim C7 witness: the canonicalization facts at `127.0.0.1:8080` and the
non-mapped v6 address `1:2:3:4:5:6:7:8` port 443. -/
theorem canonicalization_spec_witness :
    SockAddr.to_canonicalized_ipv6 (.v4 ⟨127, 0, 0, 1⟩ 8080) =
        ⟨Ipv4Addr.to_ipv6_mapped ⟨127, 0, 0, 1⟩, 8080, 0, 0⟩ ∧
      (SockAddr.to_canonicalized_ipv6 (.v6 ⟨1, 2, 3, 4, 5, 6, 7, 8⟩ 443 9 7)).ip =
        ⟨1, 2, 3, 4, 5, 6, 7, 8⟩ ∧
      (SockAddr.to_canonicalized_ipv6 (.v6 ⟨1, 2, 3, 4, 5, 6, 7, 8⟩ 443 9 7)).port =
        443 ∧
      SockAddr.to_canonicalized_ipv4
          (SockAddr.to_canonicalized_ipv6 (.v4 ⟨127, 0, 0, 1⟩ 8080)).toSockAddr =
        some ⟨⟨127, 0, 0, 1⟩, 8080⟩ ∧
      (SockAddr.to_canonicalized_ipv4 (.v6 ⟨1, 2, 3, 4, 5, 6, 7, 8⟩ 443 9 7) =
          none ↔
        ¬((Ipv6Addr.mk 1 2 3 4 5 6 7 8).s0 = 0 ∧
          (Ipv6Addr.mk 1 2 3 4 5 6 7 8).s1 = 0 ∧
          (Ipv6Addr.mk 1 2 3 4 5 6 7 8).s2 = 0 ∧
          (Ipv6Addr.mk 1 2 3 4 5 6 7 8).s3 = 0 ∧
          (Ipv6Addr.mk 1 2 3 4 5 6 7 8).s4 = 0 ∧
          (Ipv6Addr.mk 1 2 3 4 5 6 7 8).s5 = 0xFFFF)) :=
  canonicalization_spec ⟨127, 0, 0, 1⟩ 8080 (by decide) (by decide) (by decide)
    (by decide) ⟨1, 2, 3, 4, 5, 6, 7, 8⟩ 443 9 7

/-- Claim C8 (amended): after every successful `SocketPool::init` call the
reusable event buffer's capacity is at least the number of sockets in the
pool (the buffer is resized to twice the count only when the count exceeds
the current capacity, so a factor-two margin is not maintained in general). -/
theorem init_capacity_ge_count (p : SocketPool) (bind_address : SockAddr) :
    ((p.init bind_address).1).sockets.length ≤
      ((p.init bind_address).1).eventsCapacity := by
  show (insertAssoc p.sockets p.tokenCounter
        bind_address.to_canonicalized_ipv6).length ≤
      (if (insertAssoc p.sockets p.tokenCounter
            bind_address.to_canonicalized_ipv6).length > p.eventsCapacity
        then (insertAssoc p.sockets p.tokenCounter
          bind_address.to_canonicalized_ipv6).length * 2
        else p.eventsCapacity)
  split_ifs with hgt
  · omega
  · omega

/-- Claim C8 counterexample: after 513 successful `init` calls on a fresh
pool (one socket per distinct port, as the event loop binds them) the pool
holds 513 sockets while the event buffer still has its initial capacity of
1024, which is smaller than 2 × 513 = 1026. -/
theorem init_capacity_cex :
    ¬(2 * (initSeq 513).sockets.length ≤ (initSeq 513).eventsCapacity) := by
  obtain ⟨-, hlen, -, hcap⟩ := initSeq_facts 513
  rw [hlen, hcap (by norm_num)]
  norm_num

/-- Claim C9: whenever `Handshake::is_valid_handshake` returns an error —
wrong length, wrong message type, MAC1 mismatch, or replay — the validator
state (MAC index and MAC history) is exactly the state before the call. -/
theorem is_valid_error_frame (b256 : List Nat → List Nat)
    (bmac : List Nat → List Nat → List Nat) (h : Handshake) (packet : List Nat)
    (e : Error) (herr : (h.is_valid_handshake b256 bmac packet).2 = .error e) :
    (h.is_valid_handshake b256 bmac packet).1 = h := by
  rcases is_valid_result b256 bmac h packet with heq | heq
  · exact heq
  · rw [heq] at herr ⊢
    by_cases hm : fingerprint ((packet.drop 116).take 16) ∈ h.mac_index
    · rw [register_eq_of_mem h _ hm]
    · rw [register_snd_of_not_mem h _ hm] at herr
      simp at herr

/-- Claim C9 witness: the empty packet fails validation with the length error
and leaves the fresh validator state unchanged. -/
theorem is_valid_error_frame_witness :
    (h0.is_valid_handshake zeroHash32 zeroMac16 []).1 = h0 :=
  is_valid_error_frame zeroHash32 zeroMac16 h0 [] .notHandshake (by decide)

/-- Claim C10: in every validator state reachable from `Handshake::new` by
`is_valid_handshake` calls, the ordered MAC history has no duplicates, the
fast-lookup MAC index holds exactly the history's entries, and both have the
same size. -/
theorem mac_index_history_agree (b256 : List Nat → List Nat)
    (bmac : List Nat → List Nat → List Nat) (h : Handshake)
    (hr : ReachableH b256 bmac h) :
    h.mac_history.Nodup ∧ (∀ x : Nat, x ∈ h.mac_index ↔ x ∈ h.mac_history) ∧
      h.mac_index.card = h.mac_history.length := by
  have hi := reachable_inv b256 bmac h hr
  refine ⟨hi.1, hi.2.1, ?_⟩
  have hset : h.mac_index = h.mac_history.toFinset := by
    apply Finset.ext
    intro x
    rw [List.mem_toFinset]
    exact hi.2.1 x
  rw [hset, List.toFinset_card_of_nodup hi.1]

/-- Claim C10 witness: the agreement instantiated at the fresh validator. -/
theorem mac_index_history_agree_witness :
    h0.mac_history.Nodup ∧ (∀ x : Nat, x ∈ h0.mac_index ↔ x ∈ h0.mac_history) ∧
      h0.mac_index.card = h0.mac_history.length :=
  mac_index_history_agree zeroHash32 zeroMac16 h0 (ReachableH.init pk0)

end WgRelay
